import Mathlib

/-!
Verification of the command-execution protocol of the `python-interactive`
package (`src/index.ts`).  The development shallowly embeds the program:
JavaScript strings become `List Char`, the stream demultiplexer installed by
`addListeners` becomes an explicit state machine driven by stream events, and
the mutex-serialized `execute` path becomes a function from session state and
an interpreter oracle to a result together with a trace of gate/stream
actions.
-/

namespace PyInteractive

/-- Strings of the embedded program, as explicit character lists. -/
abbrev Str := List Char

/-! ### JavaScript string primitives

`hasPrefix`, `includes`, `replaceFirst`, `replaceAll` and `trim` translate the
exact semantics of the JavaScript operations used by `addListeners`:
`String.prototype.includes`, `String.prototype.replace` with a string pattern
(which replaces only the first occurrence), `String.prototype.replaceAll`
(all non-overlapping occurrences, left to right, the replacement not being
rescanned), and `String.prototype.trim`. -/

/-- `hasPrefix pat s` is true when `pat` is a prefix of `s`. -/
def hasPrefix : Str → Str → Bool
  | [], _ => true
  | _ :: _, [] => false
  | p :: ps, c :: cs => if p = c then hasPrefix ps cs else false

/-- JS `s.includes(pat)`: `pat` occurs as a contiguous substring of `s`. -/
def includes (pat : Str) : Str → Bool
  | [] => hasPrefix pat []
  | c :: cs => hasPrefix pat (c :: cs) || includes pat cs

/-- JS `s.replace(pat, rep)` with a string pattern: replace the first
(leftmost) occurrence of `pat`, leaving `s` unchanged when there is none. -/
def replaceFirst (pat rep : Str) : Str → Str
  | [] => if hasPrefix pat [] then rep else []
  | c :: cs =>
    if hasPrefix pat (c :: cs) then rep ++ (c :: cs).drop pat.length
    else c :: replaceFirst pat rep cs

/-- Scanning loop of `replaceAll`, made structurally recursive through a fuel
argument.  On a match the scan continues after the matched portion (the
replacement is not rescanned); each step consumes at least one character of
the input, so fuel equal to the input length never runs out early. -/
def replaceAllFuel (pat rep : Str) : Nat → Str → Str
  | 0, s => s
  | _ + 1, [] => []
  | fuel + 1, c :: cs =>
    if pat ≠ [] ∧ hasPrefix pat (c :: cs) = true then
      rep ++ replaceAllFuel pat rep fuel ((c :: cs).drop pat.length)
    else
      c :: replaceAllFuel pat rep fuel cs

/-- JS `s.replaceAll(pat, rep)`: replace every non-overlapping occurrence of
`pat`, scanning left to right and continuing after each match. -/
def replaceAll (pat rep : Str) (s : Str) : Str :=
  replaceAllFuel pat rep s.length s

/-- Whitespace for JS `trim` (the characters relevant to this program). -/
def isJsWhitespace (c : Char) : Bool :=
  c == ' ' || c == '\n' || c == '\t' || c == '\r' || c == '\x0b' || c == '\x0c'

/-- JS `s.trim()`: strip whitespace from both ends. -/
def trim (s : Str) : Str :=
  ((s.dropWhile isJsWhitespace).reverse.dropWhile isJsWhitespace).reverse

/-! ### Sentinel tokens and prompt artifacts (from `formatCommand` and
`addListeners` in `src/index.ts`) -/

def stdoutEndMarker : Str := "#StdoutEnd#".data

def stderrEndMarker : Str := "#StderrEnd#".data

def promptArrows : Str := ">>>".data

def promptDots : Str := "...".data

/-! ### The response demultiplexer (`addListeners`, `src/index.ts:186-235`)

`addListeners` registers one `'data'` listener per stream.  No `'end'` or
`'error'` listener is registered, so end-of-stream events have no effect on
the pending promise; they are part of the event alphabet here with identity
semantics to make that observable.  After `done()` runs, `removeAllListeners`
prevents any further mutation, embedded as `step` being the identity on a
settled state. -/

/-- An event delivered by one of the two readable streams. -/
inductive StreamEvent where
  | stdoutChunk (d : Str)
  | stderrChunk (d : Str)
  | stdoutEnded
  | stderrEnded
deriving DecidableEq, Repr

/-- Settlement of the submission promise: `resolve` or `reject` payload. -/
inductive DemuxResult where
  | resolve (payload : Str)
  | reject (payload : Str)
deriving DecidableEq, Repr

/-- The closure state of `addListeners`: the two accumulation buffers, the two
done flags, and the settlement of the promise (if any). -/
structure DemuxState where
  stdoutData : Str
  stderrData : Str
  stdoutDone : Bool
  stderrDone : Bool
  settled : Option DemuxResult
deriving DecidableEq, Repr

/-- The state just after `addListeners` attaches the listeners. -/
def initDemux : DemuxState :=
  { stdoutData := [], stderrData := [], stdoutDone := false, stderrDone := false,
    settled := none }

/-- The body of `done()`: reject with the trimmed error buffer when it is
non-empty (JS truthiness of `stderrData.trim()`), otherwise resolve with the
trimmed output buffer. -/
def doneResult (s : DemuxState) : DemuxResult :=
  if (trim s.stderrData).isEmpty then .resolve (trim s.stdoutData)
  else .reject (trim s.stderrData)

/-- One stream event processed by the listeners of `addListeners`. -/
def step (s : DemuxState) (e : StreamEvent) : DemuxState :=
  if s.settled.isSome then s
  else
    match e with
    | .stdoutChunk d =>
      let s := { s with stdoutData := s.stdoutData ++ d }
      if includes stdoutEndMarker s.stdoutData then
        let s := { s with stdoutData := replaceFirst stdoutEndMarker [] s.stdoutData,
                          stdoutDone := true }
        if s.stdoutDone && s.stderrDone then { s with settled := some (doneResult s) }
        else s
      else s
    | .stderrChunk d =>
      let s := { s with stderrData := s.stderrData ++ d }
      if includes stderrEndMarker s.stderrData then
        let s := { s with
          stderrData := replaceFirst stderrEndMarker []
            (replaceAll promptDots [] (replaceAll promptArrows [] s.stderrData)),
          stderrDone := true }
        if s.stdoutDone && s.stderrDone then { s with settled := some (doneResult s) }
        else s
      else s
    | .stdoutEnded => s
    | .stderrEnded => s

/-- Run the demultiplexer over a delivery schedule of stream events. -/
def runDemux (evs : List StreamEvent) : DemuxState :=
  evs.foldl step initDemux

/-! ### The session (`PythonInteractive`, `src/index.ts`)

The `ChildProcess` handle is embedded as an identity (`pid`) together with the
presence of its three stream handles (a `null` stream in the source is an
absent handle here).  The session state keeps the fields of the class that
the protocol reads or writes: `_pythonProcess`, `_script`, `_lastCommand`. -/

/-- A spawned subprocess handle: identity plus presence of each stream. -/
structure Process where
  pid : Nat
  stdinOpen : Bool
  stdoutOpen : Bool
  stderrOpen : Bool
deriving DecidableEq, Repr

/-- The mutable fields of a `PythonInteractive` instance used by the
execution protocol. -/
structure PyState where
  pythonProcess : Option Process
  script : Str
  lastCommand : Str
deriving DecidableEq, Repr

/-- JS `command ? command : ''` on the optional argument of `formatCommand`:
`undefined` and the empty string are both falsy and become `''`. -/
def normJS : Option Str → Str
  | none => []
  | some c => if c.isEmpty then [] else c

/-- The framing text `formatCommand` appends after the caller's code:
a trailing blank line, the import aliasing the error stream, the statement
printing the stdout sentinel, and the statement printing the stderr
sentinel. -/
def frameSuffix : Str :=
  "\n\n".data
    ++ "from sys import stderr as stderr_buffer\n".data
    ++ "print(\"#StdoutEnd#\")\n".data
    ++ "print(\"#StderrEnd#\", file=stderr_buffer)\n".data

/-- `formatCommand` (`src/index.ts:172-184`): normalize the optional argument
with JS truthiness, append it to `_script`, record it as `_lastCommand`, and
return the framed command string. -/
def formatCommand (st : PyState) (command : Option Str) : PyState × Str :=
  let cmd := normJS command
  ({ st with script := st.script ++ cmd, lastCommand := cmd }, cmd ++ frameSuffix)

/-- Actions observable on the session during one `execute` call: mutex
acquisition and release, listener attachment, and the stdin write. -/
inductive Action where
  | acquireGate
  | releaseGate
  | attachListeners
  | writeStdin
deriving DecidableEq, Repr

/-- How one `execute` call settles: resolution, rejection with interpreter
error text, rejection with a thrown `Error`, or never settling. -/
inductive Outcome where
  | ok (out : Str)
  | err (msg : Str)
  | exn (msg : Str)
  | pending
deriving DecidableEq, Repr

def notStartedMsg : Str :=
  "Python process has not been started - call start() or restart() before executing commands".data

def stdoutAbsentMsg : Str := "Failed to read from standard output stream".data

def stderrAbsentMsg : Str := "Failed to read from standard error stream".data

def stdinAbsentMsg : Str := "Failed to write to standard input stream".data

/-- Result of one `execute` call: the session state afterwards, the trace of
actions performed, and the settlement of the returned promise. -/
structure ExecRun where
  state : PyState
  trace : List Action
  outcome : Outcome
deriving DecidableEq, Repr

/-- How the promise returned by `addListeners` settles once the oracle's
events for this submission have been delivered. -/
def demuxOutcome (s : DemuxState) : Outcome :=
  match s.settled with
  | some (.resolve o) => .ok o
  | some (.reject e) => .err e
  | none => .pending

/-- The body `execute` runs inside `mutex.runExclusive`
(`src/index.ts:159-169`): check the process handle, frame the command via
`formatCommand`, call `addListeners`, then call `sendInput`, and return the
listeners' promise.  When a read stream handle is absent, the `throw` inside
`addListeners`' `Promise` executor is converted by the Promise constructor
into a *rejected promise* — no synchronous exception escapes, no listener is
registered, and execution continues to `sendInput`, which still writes the
framed command to stdin when that handle is present.  When the stdin handle
is absent, `sendInput` throws synchronously inside the callback, which
preempts returning the listeners' promise, so the stdin failure is what the
caller observes in every such case.  The `oracle` maps the framed command
written to stdin to the stream events the subprocess produces for it. -/
def executeBody (st : PyState) (command : Option Str)
    (oracle : Str → List StreamEvent) : ExecRun :=
  match st.pythonProcess with
  | none => ⟨st, [], .exn notStartedMsg⟩
  | some proc =>
    let (st', framed) := formatCommand st command
    if proc.stdoutOpen = false then
      if proc.stdinOpen = false then ⟨st', [], .exn stdinAbsentMsg⟩
      else ⟨st', [.writeStdin], .exn stdoutAbsentMsg⟩
    else if proc.stderrOpen = false then
      if proc.stdinOpen = false then ⟨st', [], .exn stdinAbsentMsg⟩
      else ⟨st', [.writeStdin], .exn stderrAbsentMsg⟩
    else if proc.stdinOpen = false then ⟨st', [.attachListeners], .exn stdinAbsentMsg⟩
    else ⟨st', [.attachListeners, .writeStdin],
          demuxOutcome (runDemux (oracle framed))⟩

/-- `execute` (`src/index.ts:158-170`): run the body under the serialization
gate.  `async-mutex`'s `runExclusive` acquires the mutex, runs the body, and
releases in all cases, so the trace is the body's trace bracketed by the gate
actions. -/
def execute (st : PyState) (command : Option Str)
    (oracle : Str → List StreamEvent) : ExecRun :=
  let r := executeBody st command oracle
  ⟨r.state, .acquireGate :: r.trace ++ [.releaseGate], r.outcome⟩

/-- A batch of `execute` calls against one session.  `async-mutex` is a FIFO
mutex and `runExclusive` callbacks run one at a time in acquisition order, so
concurrent `execute` calls are embedded as sequential processing of the
commands in the order the calls acquire the gate, each submission running the
demultiplexer on its own events. -/
def executeAll (st : PyState) (cmds : List (Option Str))
    (oracle : Str → List StreamEvent) : PyState × List Outcome :=
  match cmds with
  | [] => (st, [])
  | c :: rest =>
    let r := execute st c oracle
    let (st', outs) := executeAll r.state rest oracle
    (st', r.outcome :: outs)

/-- `.catch((err) => err)` at the end of `start`: a rejection (or a thrown
`Error`) is converted into a resolution carrying the failure value. -/
def catchToResolve : Outcome → Outcome
  | .ok o => .ok o
  | .err e => .ok e
  | .exn m => .ok m
  | .pending => .pending

/-- `start` (`src/index.ts:125-131`): spawn a fresh process and reset
`_script` only when no process is running, then run an internal
`execute()` of the empty command, catching any failure into the resolved
value.  `fresh` is the handle `spawn` would return. -/
def start (st : PyState) (fresh : Process)
    (oracle : Str → List StreamEvent) : PyState × Outcome :=
  let st1 :=
    match st.pythonProcess with
    | none => { st with pythonProcess := some fresh, script := [] }
    | some _ => st
  let r := execute st1 none oracle
  (r.state, catchToResolve r.outcome)

/-! ### Spec-side definition of indentation normalization

The spec's Command Framer contract says the code is "normalized so any common
leading indentation shared by every line is stripped".  The source's
`formatCommand` does not implement any such normalization; this definition
exists only to state that spec claim for comparison. -/

/-- Split on newline characters (every line, including empty ones). -/
def splitLines : Str → List Str
  | [] => [[]]
  | c :: cs =>
    match splitLines cs with
    | [] => [[c]]
    | l :: ls => if c = '\n' then [] :: l :: ls else (c :: l) :: ls

/-- Join lines back with newline separators. -/
def joinLines : List Str → Str
  | [] => []
  | [l] => l
  | l :: ls => l ++ '\n' :: joinLines ls

/-- Length of a line's leading indentation (spaces and tabs). -/
def leadingWs (l : Str) : Nat :=
  (l.takeWhile (fun c => c == ' ' || c == '\t')).length

/-- The length of the leading indentation shared by every line. -/
def commonIndent : List Str → Nat
  | [] => 0
  | l :: ls => ls.foldl (fun n l' => min n (leadingWs l')) (leadingWs l)

/-- Modelled from the spec: "the code normalized so any common leading
indentation shared by every line is stripped" — the normalization the spec's
Command Framer contract describes but `formatCommand` in `src/index.ts` does
not perform. -/
def dedentSpec (s : Str) : Str :=
  let ls := splitLines s
  joinLines (ls.map (List.drop (commonIndent ls)))

/-! ### Invariants of the demultiplexer -/

/-- A settled state absorbs every further event (`removeAllListeners`). -/
theorem step_settled (s : DemuxState) (e : StreamEvent)
    (h : s.settled.isSome = true) : step s e = s := by
  simp [step, h]

/-- Transport an invariant preserved by `step` along a left fold. -/
theorem foldl_step_inv (P : DemuxState → Prop)
    (hstep : ∀ s e, P s → P (step s e)) :
    ∀ (evs : List StreamEvent) (s : DemuxState), P s → P (evs.foldl step s) := by
  intro evs
  induction evs with
  | nil => intro s h; exact h
  | cons e evs ih => intro s h; exact ih _ (hstep _ _ h)

/-- A step settles only with (and records exactly) the verdict of `done()` on
the buffers at settlement time. -/
theorem step_settled_doneResult (s : DemuxState) (e : StreamEvent)
    (hP : ∀ r, s.settled = some r → r = doneResult s) :
    ∀ r, (step s e).settled = some r → r = doneResult (step s e) := by
  intro r hr
  by_cases h0 : s.settled.isSome
  · rw [step_settled s e h0] at hr ⊢
    exact hP r hr
  · have h0' : s.settled = none := by
      cases hs : s.settled with
      | none => rfl
      | some v => rw [hs] at h0; simp at h0
    cases e with
    | stdoutChunk d =>
      simp only [step, h0, Bool.false_eq_true, if_false, if_neg] at hr ⊢
      split at hr
      · rename_i hinc
        split at hr
        · rename_i hboth
          rw [Bool.true_and] at hboth
          simp only at hr
          cases hr
          simp [doneResult, hinc, hboth]
        · simp [h0'] at hr
      · simp [h0'] at hr
    | stderrChunk d =>
      simp only [step, h0, Bool.false_eq_true, if_false, if_neg] at hr ⊢
      split at hr
      · rename_i hinc
        split at hr
        · rename_i hboth
          rw [Bool.and_true] at hboth
          simp only at hr
          cases hr
          simp [doneResult, hinc, hboth]
        · simp [h0'] at hr
      · simp [h0'] at hr
    | stdoutEnded =>
      simp only [step, h0, Bool.false_eq_true, if_false, if_neg] at hr ⊢
      exact hP r hr
    | stderrEnded =>
      simp only [step, h0, Bool.false_eq_true, if_false, if_neg] at hr ⊢
      exact hP r hr

/-- Whenever the demultiplexer has settled, the settlement is the verdict of
`done()` on the final buffers. -/
theorem runDemux_settled_doneResult (evs : List StreamEvent) :
    ∀ r, (runDemux evs).settled = some r → r = doneResult (runDemux evs) := by
  have := foldl_step_inv (fun s => ∀ r, s.settled = some r → r = doneResult s)
    step_settled_doneResult evs initDemux
  exact this (by intro r hr; simp [initDemux] at hr)

/-- A step settles only when both done flags hold afterwards. -/
theorem step_settled_both_done (s : DemuxState) (e : StreamEvent)
    (hP : s.settled.isSome = true → s.stdoutDone = true ∧ s.stderrDone = true) :
    (step s e).settled.isSome = true →
      (step s e).stdoutDone = true ∧ (step s e).stderrDone = true := by
  intro hr
  by_cases h0 : s.settled.isSome
  · rw [step_settled s e h0] at hr ⊢
    exact hP hr
  · have h0' : s.settled = none := by
      cases hs : s.settled with
      | none => rfl
      | some v => rw [hs] at h0; simp at h0
    cases e with
    | stdoutChunk d =>
      simp only [step, h0, Bool.false_eq_true, if_false, if_neg] at hr ⊢
      split at hr
      · rename_i hinc
        simp only [hinc, if_true]
        split at hr
        · rename_i hboth
          simp_all
        · simp [h0'] at hr
      · simp [h0'] at hr
    | stderrChunk d =>
      simp only [step, h0, Bool.false_eq_true, if_false, if_neg] at hr ⊢
      split at hr
      · rename_i hinc
        simp only [hinc, if_true]
        split at hr
        · rename_i hboth
          simp_all
        · simp [h0'] at hr
      · simp [h0'] at hr
    | stdoutEnded =>
      simp only [step, h0, Bool.false_eq_true, if_false, if_neg] at hr ⊢
    | stderrEnded =>
      simp only [step, h0, Bool.false_eq_true, if_false, if_neg] at hr ⊢

/-- Whenever the demultiplexer has settled, both sides had reported done. -/
theorem runDemux_settled_both_done (evs : List StreamEvent) :
    (runDemux evs).settled.isSome = true →
      (runDemux evs).stdoutDone = true ∧ (runDemux evs).stderrDone = true := by
  have := foldl_step_inv
    (fun s => s.settled.isSome = true → s.stdoutDone = true ∧ s.stderrDone = true)
    step_settled_both_done evs initDemux
  exact this (by intro h; simp [initDemux] at h)

/-- The stdout done flag is raised only by a stdout data event that makes the
accumulated stdout buffer contain the stdout end marker. -/
theorem step_stdoutDone_origin (s : DemuxState) (e : StreamEvent)
    (h : (step s e).stdoutDone = true) :
    s.stdoutDone = true ∨
      ∃ d, e = .stdoutChunk d ∧ includes stdoutEndMarker (s.stdoutData ++ d) = true := by
  by_cases h0 : s.settled.isSome
  · rw [step_settled s e h0] at h
    exact Or.inl h
  · cases e with
    | stdoutChunk d =>
      simp only [step, h0, Bool.false_eq_true, if_false, if_neg] at h
      split at h
      · rename_i hinc
        exact Or.inr ⟨d, rfl, hinc⟩
      · exact Or.inl h
    | stderrChunk d =>
      simp only [step, h0, Bool.false_eq_true, if_false, if_neg] at h
      split at h
      · split at h
        · exact Or.inl h
        · exact Or.inl h
      · exact Or.inl h
    | stdoutEnded =>
      simp only [step, h0, Bool.false_eq_true, if_false, if_neg] at h
      exact Or.inl h
    | stderrEnded =>
      simp only [step, h0, Bool.false_eq_true, if_false, if_neg] at h
      exact Or.inl h

/-! ### Facts about the JS string primitives -/

/-- A pattern that does not occur in `s` is never matched by the
`replaceAll` scan, whatever the fuel. -/
theorem replaceAllFuel_of_not_includes (pat rep : Str) :
    ∀ (n : Nat) (s : Str), includes pat s = false → replaceAllFuel pat rep n s = s := by
  intro n
  induction n with
  | zero => intro s _; rfl
  | succ n ih =>
    intro s hs
    cases s with
    | nil => rfl
    | cons c cs =>
      simp only [includes, Bool.or_eq_false_iff] at hs
      simp only [replaceAllFuel, hs.1, and_false, Bool.false_eq_true, if_false, if_neg,
        not_and, imp_false]
      rw [ih cs hs.2]

/-- JS `replaceAll` leaves a string without any occurrence of the pattern
unchanged. -/
theorem replaceAll_of_not_includes (pat rep s : Str)
    (h : includes pat s = false) : replaceAll pat rep s = s :=
  replaceAllFuel_of_not_includes pat rep s.length s h

/-- Every list is a prefix of itself. -/
theorem hasPrefix_refl (p : Str) : hasPrefix p p = true := by
  induction p with
  | nil => rfl
  | cons c cs ih => simp [hasPrefix, ih]

/-- Every list is a prefix of itself extended on the right. -/
theorem hasPrefix_append (p t : Str) : hasPrefix p (p ++ t) = true := by
  induction p with
  | nil => rfl
  | cons c cs ih => simp [hasPrefix, ih]

/-- A string that ends with the pattern contains it. -/
theorem includes_append_self (pat e : Str) : includes pat (e ++ pat) = true := by
  induction e with
  | nil =>
    cases pat with
    | nil => rfl
    | cons c cs =>
      simp only [List.nil_append, includes, Bool.or_eq_true]
      exact Or.inl (hasPrefix_refl (c :: cs))
  | cons c cs ih =>
    simp [includes, ih]

/-- If the first character of the pattern occurs nowhere in `e`, the first
occurrence of the pattern in `e ++ pat` is the final one, and JS `replace`
removes exactly it. -/
theorem replaceFirst_append_self (h : Char) (pt e : Str) (he : h ∉ e) :
    replaceFirst (h :: pt) [] (e ++ (h :: pt)) = e := by
  induction e with
  | nil =>
    simp only [List.nil_append, replaceFirst, hasPrefix_refl (h :: pt), if_true]
    simp [List.drop_length]
  | cons c cs ih =>
    have hne : ¬(h = c) := fun hc => he (hc ▸ List.mem_cons_self c cs)
    simp only [List.cons_append, replaceFirst, hasPrefix, hne, Bool.false_eq_true,
      if_false, if_neg, List.append_eq]
    rw [ih (fun hm => he (List.mem_cons_of_mem c hm))]

/-- A string containing a pattern contains the pattern's first character. -/
theorem includes_head_mem (h : Char) (pt l : Str)
    (hinc : includes (h :: pt) l = true) : h ∈ l := by
  induction l with
  | nil => simp [includes, hasPrefix] at hinc
  | cons c cs ih =>
    simp only [includes, Bool.or_eq_true] at hinc
    rcases hinc with hp | hi
    · simp only [hasPrefix] at hp
      split at hp
      · rename_i hcc
        exact hcc ▸ List.mem_cons_self c cs
      · simp at hp
    · exact List.mem_cons_of_mem c (ih hi)

/-- A string without the pattern's first character does not contain the
pattern. -/
theorem not_includes_of_head_not_mem {l : Str} {h : Char} (hl : h ∉ l) (pt : Str) :
    includes (h :: pt) l = false := by
  cases hinc : includes (h :: pt) l
  · rfl
  · exact absurd (includes_head_mem h pt l hinc) hl

/-- The stderr done flag is raised only by a stderr data event that makes the
accumulated stderr buffer contain the stderr end marker. -/
theorem step_stderrDone_origin (s : DemuxState) (e : StreamEvent)
    (h : (step s e).stderrDone = true) :
    s.stderrDone = true ∨
      ∃ d, e = .stderrChunk d ∧ includes stderrEndMarker (s.stderrData ++ d) = true := by
  by_cases h0 : s.settled.isSome
  · rw [step_settled s e h0] at h
    exact Or.inl h
  · cases e with
    | stdoutChunk d =>
      simp only [step, h0, Bool.false_eq_true, if_false, if_neg] at h
      split at h
      · split at h
        · exact Or.inl h
        · exact Or.inl h
      · exact Or.inl h
    | stderrChunk d =>
      simp only [step, h0, Bool.false_eq_true, if_false, if_neg] at h
      split at h
      · rename_i hinc
        exact Or.inr ⟨d, rfl, hinc⟩
      · exact Or.inl h
    | stdoutEnded =>
      simp only [step, h0, Bool.false_eq_true, if_false, if_neg] at h
      exact Or.inl h
    | stderrEnded =>
      simp only [step, h0, Bool.false_eq_true, if_false, if_neg] at h
      exact Or.inl h

/-! ### Facts about the execute path -/

/-- `execute` on a live session whose three stream handles are all present:
the gate is taken, the command is framed and recorded, the listeners are
attached, the framed command is written, and the submission settles as the
demultiplexer settles on this submission's events. -/
theorem execute_live (st : PyState) (p : Process) (command : Option Str)
    (oracle : Str → List StreamEvent)
    (hp : st.pythonProcess = some p) (ho : p.stdoutOpen = true)
    (he : p.stderrOpen = true) (hi : p.stdinOpen = true) :
    execute st command oracle =
      ⟨{ st with script := st.script ++ normJS command, lastCommand := normJS command },
       [.acquireGate, .attachListeners, .writeStdin, .releaseGate],
       demuxOutcome (runDemux (oracle (normJS command ++ frameSuffix)))⟩ := by
  simp [execute, executeBody, hp, formatCommand, ho, he, hi]

/-- Whatever the stream handles, the body of `execute` on a live session
leaves the session with the command appended to the script and recorded as
the last command (the `formatCommand` side effect happens before the stream
checks). -/
theorem executeBody_state_live (st : PyState) (p : Process) (command : Option Str)
    (oracle : Str → List StreamEvent) (hp : st.pythonProcess = some p) :
    (executeBody st command oracle).state =
      { st with script := st.script ++ normJS command, lastCommand := normJS command } := by
  simp only [executeBody, hp, formatCommand]
  repeat' split
  all_goals rfl

/-- The state after `execute` is the state after its body. -/
theorem execute_state (st : PyState) (command : Option Str)
    (oracle : Str → List StreamEvent) :
    (execute st command oracle).state = (executeBody st command oracle).state := rfl

/-- The demultiplexer registers no end-of-stream handler, so end-of-stream
events leave its state (settlement included) untouched. -/
theorem step_ignores_ended (s : DemuxState) :
    step s .stdoutEnded = s ∧ step s .stderrEnded = s := by
  constructor <;> (cases h : s.settled.isSome <;> simp [step, h])

/-! ### Concrete fixtures for witnesses and counterexamples -/

/-- A process handle with all three streams present. -/
def procAll : Process := ⟨1, true, true, true⟩

/-- A second process handle, for respawn scenarios. -/
def procFresh : Process := ⟨2, true, true, true⟩

/-- A freshly constructed, never started session. -/
def unstartedSession : PyState := ⟨none, [], []⟩

/-- A started session with empty history. -/
def startedSession : PyState := ⟨some procAll, [], []⟩

/-- A live session that has already executed `print(9)`. -/
def liveSession : PyState := ⟨some procAll, "print(9)".data, "print(9)".data⟩

/-- An oracle delivering no stream events at all. -/
def silentOracle : Str → List StreamEvent := fun _ => []

/-- A clean exchange for one submission: the printed output followed by the
stdout sentinel line on stdout, and the stderr sentinel line on stderr. -/
def cleanExchange (out : Str) : List StreamEvent :=
  [.stdoutChunk (out ++ '\n' :: stdoutEndMarker ++ "\n".data),
   .stderrChunk (stderrEndMarker ++ "\n".data)]

/-- The interpreter's behavior for three serialized print submissions, keyed
by the framed command written to its stdin. -/
def printOracle (framed : Str) : List StreamEvent :=
  if framed = normJS (some "print(1)".data) ++ frameSuffix then cleanExchange "1".data
  else if framed = normJS (some "print(2)".data) ++ frameSuffix then cleanExchange "2".data
  else if framed = normJS (some "print(3)".data) ++ frameSuffix then cleanExchange "3".data
  else []

/-- The three concurrent submissions of the ordering scenario. -/
def printCmds : List (Option Str) :=
  [some "print(1)".data, some "print(2)".data, some "print(3)".data]

/-- A delivery where both the output and the error buffer end up non-empty. -/
def mixedExchange : List StreamEvent :=
  [.stdoutChunk ("out".data ++ stdoutEndMarker),
   .stderrChunk ("boom".data ++ stderrEndMarker)]

/-- A clean single-submission delivery used to exhibit settlement. -/
def simpleExchange : List StreamEvent := cleanExchange "7".data

/-- Error text that legitimately contains a `...` sequence. -/
def garbledError : Str := "ValueError: bad ... here".data

/-- Error text free of prompt artifacts and of the marker character. -/
def cleanError : Str := "NameError: name x".data

/-- Caller code indented by two spaces on every line. -/
def indentedCode : Str := "  print(1)".data

/-- A second indented snippet, for the transcript claim. -/
def indentedAssign : Str := "  x = 1".data

/-- A delivery in which the code itself printed the stdout sentinel token,
the error side finished, and genuine output arrived afterwards. -/
def spoofEvents : List StreamEvent :=
  [.stdoutChunk ("early\n".data ++ stdoutEndMarker),
   .stderrChunk stderrEndMarker,
   .stdoutChunk "late".data]

/-- A delivery that ends both streams before any sentinel was seen. -/
def eosEvents : List StreamEvent :=
  [.stdoutChunk "partial".data, .stdoutEnded, .stderrEnded]

/-! ### The claims -/

/-- **C1.** At joint completion of the two stream sides, if the accumulated
error buffer is non-empty after trimming the submission rejects with that
trimmed error text, and otherwise it resolves with the trimmed output buffer;
in particular, when both buffers are non-empty the error wins and the output
captured before the error is never delivered through the success path. -/
theorem submission_error_wins (evs : List StreamEvent) (r : DemuxResult)
    (h : (runDemux evs).settled = some r) :
    ((trim (runDemux evs).stderrData).isEmpty = false →
        r = .reject (trim (runDemux evs).stderrData)) ∧
    ((trim (runDemux evs).stderrData).isEmpty = true →
        r = .resolve (trim (runDemux evs).stdoutData)) := by
  have hres := runDemux_settled_doneResult evs r h
  unfold doneResult at hres
  constructor
  · intro hne
    rw [hres]
    simp [hne]
  · intro hem
    rw [hres]
    simp [hem]

/-- Witness for C1 on a delivery where both buffers end non-empty: the
submission rejects with the trimmed error buffer, not the captured output. -/
theorem submission_error_wins_witness :
    (runDemux mixedExchange).settled =
      some (.reject (trim (runDemux mixedExchange).stderrData)) := by
  have h : (runDemux mixedExchange).settled = some (.reject "boom".data) := by decide
  have h2 := (submission_error_wins mixedExchange _ h).1 (by decide)
  rw [h, h2]

/-- **C2.** A submission is never settled before both sides are done: the
promise settles only with both done flags raised, and each done flag is
raised only by a data event that makes that side's accumulated buffer contain
its end marker — so observing only one of the two markers never settles the
submission. -/
theorem settle_requires_both_markers :
    (∀ evs : List StreamEvent, (runDemux evs).settled.isSome = true →
        (runDemux evs).stdoutDone = true ∧ (runDemux evs).stderrDone = true) ∧
    (∀ (s : DemuxState) (e : StreamEvent), (step s e).stdoutDone = true →
        s.stdoutDone = true ∨
          ∃ d, e = .stdoutChunk d ∧ includes stdoutEndMarker (s.stdoutData ++ d) = true) ∧
    (∀ (s : DemuxState) (e : StreamEvent), (step s e).stderrDone = true →
        s.stderrDone = true ∨
          ∃ d, e = .stderrChunk d ∧ includes stderrEndMarker (s.stderrData ++ d) = true) :=
  ⟨runDemux_settled_both_done, step_stdoutDone_origin, step_stderrDone_origin⟩

/-- Witness for C2: a settled clean exchange has both done flags, and each
flag-raising step exhibits the marker in the corresponding buffer. -/
theorem settle_requires_both_markers_witness :
    ((runDemux simpleExchange).stdoutDone = true ∧
      (runDemux simpleExchange).stderrDone = true) ∧
    (initDemux.stdoutDone = true ∨
      ∃ d, StreamEvent.stdoutChunk stdoutEndMarker = .stdoutChunk d ∧
        includes stdoutEndMarker (initDemux.stdoutData ++ d) = true) ∧
    (initDemux.stderrDone = true ∨
      ∃ d, StreamEvent.stderrChunk stderrEndMarker = .stderrChunk d ∧
        includes stderrEndMarker (initDemux.stderrData ++ d) = true) :=
  ⟨settle_requires_both_markers.1 simpleExchange (by decide),
   settle_requires_both_markers.2.1 initDemux (.stdoutChunk stdoutEndMarker) (by decide),
   settle_requires_both_markers.2.2 initDemux (.stderrChunk stderrEndMarker) (by decide)⟩

/-- **C10.** Sentinel detection is by substring containment, so code that
itself prints the literal stdout token can spoof completion: on `spoofEvents`
the first token occurrence marks the output side done, the token is removed
from the buffer, the submission settles with only the output produced before
the token, and the genuine output arriving afterwards is excluded from the
resolved payload. -/
theorem sentinel_spoofable_by_output :
    (runDemux [.stdoutChunk ("early\n".data ++ stdoutEndMarker)]).stdoutDone = true
    ∧ (runDemux [.stdoutChunk ("early\n".data ++ stdoutEndMarker)]).stdoutData = "early\n".data
    ∧ (runDemux spoofEvents).settled = some (.resolve "early".data)
    ∧ runDemux spoofEvents = runDemux (spoofEvents.take 2)
    ∧ includes "late".data "early".data = false := by
  refine ⟨by decide, by decide, by decide, by decide, by decide⟩

/-- **C4 as stated fails**: the framed command does not begin with the
indentation-normalized code followed by a blank line — `formatCommand`
performs no dedenting, so indented caller code is framed verbatim. -/
theorem framing_dedent_cex :
    hasPrefix (dedentSpec (normJS (some indentedCode)) ++ "\n\n".data)
      (formatCommand unstartedSession (some indentedCode)).2 = false := by
  decide

/-- **C4 (amended).** The framed command written to the subprocess consists,
in order, of: the caller's code verbatim (undefined or empty treated as the
empty string, hence an empty line, not an error), a trailing blank line,
a statement importing an alias of the error stream, a statement printing the
stdout marker token to standard output, and a statement printing the distinct
stderr marker token to standard error.  No indentation normalization is
applied. -/
theorem framing_layout (st : PyState) (command : Option Str) :
    (formatCommand st command).2 =
      normJS command ++ "\n\n".data
        ++ "from sys import stderr as stderr_buffer\n".data
        ++ "print(\"#StdoutEnd#\")\n".data
        ++ "print(\"#StderrEnd#\", file=stderr_buffer)\n".data
    ∧ normJS none = [] ∧ normJS (some []) = []
    ∧ stdoutEndMarker ≠ stderrEndMarker
    ∧ includes stdoutEndMarker "print(\"#StdoutEnd#\")\n".data = true
    ∧ includes stderrEndMarker "print(\"#StderrEnd#\", file=stderr_buffer)\n".data = true := by
  refine ⟨?_, rfl, rfl, by decide, by decide, by decide⟩
  simp [formatCommand, frameSuffix]

/-- **C5 as stated fails**: on a session with no running subprocess the
"not started" failure is raised from inside `mutex.runExclusive`, so the
serialization gate is acquired (and released) — not skipped as the claim
requires. -/
theorem not_started_check_inside_gate_cex :
    Action.acquireGate ∈ (execute unstartedSession none silentOracle).trace
    ∧ (execute unstartedSession none silentOracle).outcome = .exn notStartedMsg := by
  refine ⟨by decide, by decide⟩

/-- **C5 (amended).** For every session with no running subprocess, execute()
with any input (including undefined) fails with the "not started" condition;
the failure is raised after the serialization gate is acquired but before any
stream interaction — no listeners are attached, nothing is written, and the
session state is unchanged. -/
theorem not_started_rejects_in_gate (st : PyState) (command : Option Str)
    (oracle : Str → List StreamEvent) (hp : st.pythonProcess = none) :
    execute st command oracle =
      ⟨st, [.acquireGate, .releaseGate], .exn notStartedMsg⟩ := by
  simp [execute, executeBody, hp]

/-- Witness for C5 (amended) at a concrete unstarted session. -/
theorem not_started_rejects_in_gate_witness :
    execute unstartedSession none silentOracle =
      ⟨unstartedSession, [.acquireGate, .releaseGate], .exn notStartedMsg⟩ :=
  not_started_rejects_in_gate unstartedSession none silentOracle rfl

/-- **C3.** Submissions against one live session are serviced strictly one at
a time in the FIFO order in which the execute() calls acquire the
serialization gate, and each submission settles from the demultiplexer run on
its own framed command's events alone — so the output produced for submission
N is never attributed to submission N+1. -/
theorem execute_fifo_attribution (st : PyState) (p : Process)
    (cmds : List (Option Str)) (oracle : Str → List StreamEvent)
    (hp : st.pythonProcess = some p) (ho : p.stdoutOpen = true)
    (he : p.stderrOpen = true) (hi : p.stdinOpen = true) :
    (executeAll st cmds oracle).2 =
      cmds.map (fun c => demuxOutcome (runDemux (oracle (normJS c ++ frameSuffix)))) := by
  induction cmds generalizing st hp with
  | nil => rfl
  | cons c rest ih =>
    have hx := execute_live st p c oracle hp ho he hi
    simp only [executeAll, hx, List.map_cons]
    exact congrArg _ (ih _ hp)

/-- Witness for C3: three concurrent `print(1)`, `print(2)`, `print(3)`
submissions resolve to `"1"`, `"2"`, `"3"` in submission order. -/
theorem execute_fifo_attribution_witness :
    (executeAll startedSession printCmds printOracle).2 =
      [.ok "1".data, .ok "2".data, .ok "3".data] := by
  rw [execute_fifo_attribution startedSession procAll printCmds printOracle rfl rfl rfl rfl]
  decide

/-- **C6 as stated fails**: the transcript does not receive the
indentation-normalized code — `formatCommand` appends the caller's code
verbatim, so for indented code the transcript differs from the previous
transcript followed by the normalized code. -/
theorem script_dedent_cex :
    (formatCommand unstartedSession (some indentedAssign)).1.script ≠
      unstartedSession.script ++ dedentSpec (normJS (some indentedAssign)) := by
  decide

/-- **C6 (amended).** `formatCommand` appends the caller's code verbatim
(undefined/empty as the empty string) to the transcript and records it as the
last-submitted command, before the sentinel wrapping is applied: the new
transcript is exactly the previous transcript followed by the caller's code,
and no framing text is added — in particular, when neither the previous
transcript nor the code contains the marker character `#`, neither sentinel
token occurs in the transcript or the last command. -/
theorem script_appends_verbatim (st : PyState) (command : Option Str) :
    ((formatCommand st command).1.script = st.script ++ normJS command
      ∧ (formatCommand st command).1.lastCommand = normJS command)
    ∧ ('#' ∉ st.script → '#' ∉ normJS command →
        includes stdoutEndMarker (formatCommand st command).1.script = false
        ∧ includes stderrEndMarker (formatCommand st command).1.script = false
        ∧ includes stdoutEndMarker (formatCommand st command).1.lastCommand = false
        ∧ includes stderrEndMarker (formatCommand st command).1.lastCommand = false) := by
  refine ⟨⟨rfl, rfl⟩, ?_⟩
  intro hs hc
  have happ : '#' ∉ (formatCommand st command).1.script := by
    simp only [formatCommand]
    intro hm
    rcases List.mem_append.mp hm with h | h
    · exact hs h
    · exact hc h
  have hlast : '#' ∉ (formatCommand st command).1.lastCommand := hc
  refine ⟨?_, ?_, ?_, ?_⟩
  · exact not_includes_of_head_not_mem happ "StdoutEnd#".data
  · exact not_includes_of_head_not_mem happ "StderrEnd#".data
  · exact not_includes_of_head_not_mem hlast "StdoutEnd#".data
  · exact not_includes_of_head_not_mem hlast "StderrEnd#".data

/-- Witness for C6 (amended) at a concrete session and hash-free code. -/
theorem script_appends_verbatim_witness :
    ((formatCommand unstartedSession (some "x = 1".data)).1.script =
        unstartedSession.script ++ normJS (some "x = 1".data)
      ∧ (formatCommand unstartedSession (some "x = 1".data)).1.lastCommand =
          normJS (some "x = 1".data))
    ∧ (includes stdoutEndMarker
          (formatCommand unstartedSession (some "x = 1".data)).1.script = false
        ∧ includes stderrEndMarker
            (formatCommand unstartedSession (some "x = 1".data)).1.script = false
        ∧ includes stdoutEndMarker
            (formatCommand unstartedSession (some "x = 1".data)).1.lastCommand = false
        ∧ includes stderrEndMarker
            (formatCommand unstartedSession (some "x = 1".data)).1.lastCommand = false) :=
  ⟨(script_appends_verbatim unstartedSession (some "x = 1".data)).1,
   (script_appends_verbatim unstartedSession (some "x = 1".data)).2
     (by decide) (by decide)⟩

/-- **C8 as stated fails**: start() on an already-running session is not a
transcript-transparent no-op — its internal empty execute() resets the
last-submitted command to the empty string. -/
theorem start_running_lastCommand_cex :
    (start liveSession procFresh silentOracle).1.lastCommand ≠
      liveSession.lastCommand := by
  decide

/-- **C8 (amended).** Calling start() on a session whose subprocess is
already running does not respawn: the subprocess handle identity and the
transcript are unchanged; however the internal empty execute() it performs
resets the last-submitted command to the empty string. -/
theorem start_on_running_session (st : PyState) (p fresh : Process)
    (oracle : Str → List StreamEvent) (hp : st.pythonProcess = some p) :
    (start st fresh oracle).1.pythonProcess = some p
    ∧ (start st fresh oracle).1.script = st.script
    ∧ (start st fresh oracle).1.lastCommand = [] := by
  have hst : (start st fresh oracle).1 = (executeBody st none oracle).state := by
    simp [start, hp, execute_state]
  rw [hst, executeBody_state_live st p none oracle hp]
  refine ⟨hp ▸ rfl, by simp [normJS], rfl⟩

/-- Witness for C8 (amended) at a concrete live session. -/
theorem start_on_running_session_witness :
    (start liveSession procFresh silentOracle).1.pythonProcess = some procAll
    ∧ (start liveSession procFresh silentOracle).1.script = liveSession.script
    ∧ (start liveSession procFresh silentOracle).1.lastCommand = [] :=
  start_on_running_session liveSession procAll procFresh silentOracle rfl

/-- **C9 as stated fails** in its end-of-stream half: `addListeners`
registers no end-of-stream handler, so a stream ending before both sentinels
leaves the pending submission unsettled — it is not rejected. -/
theorem eos_leaves_pending_cex :
    (runDemux eosEvents).settled = none
    ∧ (execute startedSession none (fun _ => eosEvents)).outcome = .pending := by
  refine ⟨by decide, by decide⟩

/-- **C9 (amended).** If a stream handle is absent at the moment a submission
is attempted, the submission fails immediately with the corresponding
descriptive condition: an absent stdout (or, stdout present, an absent
stderr) surfaces that read stream's condition — though the framed command is
still written to the subprocess when the stdin handle is present, because the
`Promise` constructor swallows the throw inside `addListeners` — while an
absent stdin handle surfaces the write condition in every case, with nothing
written and that synchronous throw preempting the listeners' rejected
promise.  When a stream signals end-of-stream before both sentinels are
observed, the pending submission is left unsettled (the demultiplexer
ignores end-of-stream), not rejected. -/
theorem stream_failures (st : PyState) (p : Process) (command : Option Str)
    (oracle : Str → List StreamEvent) (hp : st.pythonProcess = some p) :
    (p.stdoutOpen = false → p.stdinOpen = true →
        (execute st command oracle).outcome = .exn stdoutAbsentMsg
        ∧ Action.writeStdin ∈ (execute st command oracle).trace)
    ∧ (p.stdoutOpen = true → p.stderrOpen = false → p.stdinOpen = true →
        (execute st command oracle).outcome = .exn stderrAbsentMsg
        ∧ Action.writeStdin ∈ (execute st command oracle).trace)
    ∧ (p.stdinOpen = false →
        (execute st command oracle).outcome = .exn stdinAbsentMsg
        ∧ Action.writeStdin ∉ (execute st command oracle).trace)
    ∧ (∀ s : DemuxState, step s .stdoutEnded = s ∧ step s .stderrEnded = s) := by
  refine ⟨?_, ?_, ?_, step_ignores_ended⟩
  · intro ho hi
    constructor <;> simp [execute, executeBody, hp, formatCommand, ho, hi]
  · intro ho he hi
    constructor <;> simp [execute, executeBody, hp, formatCommand, ho, he, hi]
  · intro hi
    cases ho : p.stdoutOpen <;> cases he : p.stderrOpen <;>
      exact ⟨by simp [execute, executeBody, hp, formatCommand, hi, ho, he],
             by simp [execute, executeBody, hp, formatCommand, hi, ho, he]⟩

/-- **C7 as stated fails**: stripping of prompt artifacts from the error
buffer is not conservative — `replaceAll` removes the literal `...` sequence
wherever it occurs, including inside genuine error text, so characters of the
genuine error message are lost from the rejection payload. -/
theorem stripping_mutilates_error_cex :
    (runDemux [.stderrChunk (garbledError ++ stderrEndMarker),
               .stdoutChunk stdoutEndMarker]).settled
      = some (.reject "ValueError: bad  here".data)
    ∧ "ValueError: bad  here".data ≠ trim garbledError
    ∧ includes promptDots garbledError = true := by
  refine ⟨by decide, by decide, by decide⟩

/-- **C7 (amended).** Stripping removes every occurrence of `>>>` and `...`
from the accumulated error buffer, even inside genuine error text (a known
precision gap); genuine error text containing neither of those sequences nor
the marker character `#` is preserved verbatim in the error buffer and, when
non-blank, is delivered (trimmed) as the rejection payload. -/
theorem stripping_spares_clean_text (e : Str) (hhash : '#' ∉ e)
    (harr : includes promptArrows (e ++ stderrEndMarker) = false)
    (hdots : includes promptDots (e ++ stderrEndMarker) = false) :
    (runDemux [.stderrChunk (e ++ stderrEndMarker),
               .stdoutChunk stdoutEndMarker]).stderrData = e
    ∧ ((trim e).isEmpty = false →
        (runDemux [.stderrChunk (e ++ stderrEndMarker),
                   .stdoutChunk stdoutEndMarker]).settled = some (.reject (trim e))) := by
  have hmark : stderrEndMarker = '#' :: "StderrEnd#".data := rfl
  have homark : stdoutEndMarker = '#' :: "StdoutEnd#".data := rfl
  have h1 : step initDemux (.stderrChunk (e ++ stderrEndMarker)) =
      ⟨[], e, false, true, none⟩ := by
    simp only [step, initDemux, Option.isSome_none, Bool.false_eq_true, if_false, if_neg,
      List.nil_append, includes_append_self, if_true,
      replaceAll_of_not_includes promptArrows [] _ harr,
      replaceAll_of_not_includes promptDots [] _ hdots,
      Bool.false_and]
    rw [hmark, replaceFirst_append_self '#' _ e hhash]
  have h2 : step (⟨[], e, false, true, none⟩ : DemuxState) (.stdoutChunk stdoutEndMarker) =
      ⟨[], e, true, true,
        some (if (trim e).isEmpty then .resolve (trim []) else .reject (trim e))⟩ := by
    simp only [step, Option.isSome_none, Bool.false_eq_true, if_false, if_neg,
      List.nil_append]
    rw [homark]
    rw [show includes ('#' :: "StdoutEnd#".data) ('#' :: "StdoutEnd#".data) = true from
      includes_append_self _ []]
    have hrf : replaceFirst ('#' :: "StdoutEnd#".data) [] ('#' :: "StdoutEnd#".data) = [] :=
      replaceFirst_append_self '#' "StdoutEnd#".data [] (by simp)
    rw [hrf]
    simp [doneResult]
  have hrun : runDemux [.stderrChunk (e ++ stderrEndMarker),
      .stdoutChunk stdoutEndMarker] =
      ⟨[], e, true, true,
        some (if (trim e).isEmpty then .resolve (trim []) else .reject (trim e))⟩ := by
    simp only [runDemux, List.foldl, h1, h2]
  rw [hrun]
  refine ⟨rfl, ?_⟩
  intro hne
  simp [hne]

/-- Witness for C7 (amended) on clean error text. -/
theorem stripping_spares_clean_text_witness :
    (runDemux [.stderrChunk (cleanError ++ stderrEndMarker),
               .stdoutChunk stdoutEndMarker]).stderrData = cleanError
    ∧ (runDemux [.stderrChunk (cleanError ++ stderrEndMarker),
                 .stdoutChunk stdoutEndMarker]).settled = some (.reject (trim cleanError)) :=
  ⟨(stripping_spares_clean_text cleanError (by decide) (by decide) (by decide)).1,
   (stripping_spares_clean_text cleanError (by decide) (by decide) (by decide)).2
     (by decide)⟩

/-- Witness for C9 (amended): a session whose stdout handle is gone fails
with the descriptive condition yet still writes the framed command, a session
whose stdin handle is gone fails with the write condition without writing,
and end-of-stream events are inert. -/
theorem stream_failures_witness :
    ((execute ⟨some ⟨3, true, false, true⟩, [], []⟩ none silentOracle).outcome
        = .exn stdoutAbsentMsg
      ∧ Action.writeStdin ∈
          (execute ⟨some ⟨3, true, false, true⟩, [], []⟩ none silentOracle).trace)
    ∧ ((execute ⟨some ⟨4, false, true, true⟩, [], []⟩ none silentOracle).outcome
        = .exn stdinAbsentMsg
      ∧ Action.writeStdin ∉
          (execute ⟨some ⟨4, false, true, true⟩, [], []⟩ none silentOracle).trace)
    ∧ (step initDemux .stdoutEnded = initDemux ∧ step initDemux .stderrEnded = initDemux) :=
  ⟨(stream_failures ⟨some ⟨3, true, false, true⟩, [], []⟩ ⟨3, true, false, true⟩
      none silentOracle rfl).1 rfl rfl,
   (stream_failures ⟨some ⟨4, false, true, true⟩, [], []⟩ ⟨4, false, true, true⟩
      none silentOracle rfl).2.2.1 rfl,
   (stream_failures ⟨some ⟨3, true, false, true⟩, [], []⟩ ⟨3, true, false, true⟩
      none silentOracle rfl).2.2.2 initDemux⟩

end PyInteractive
